import Mathlib

/-
Verification of the structured-output extraction demos.

The repository consists of two demonstration scripts:
  - ollama_instructor_demo.py: defines a pydantic UserDetails schema and an
    extract_user_details function that calls an instructor-wrapped client with
    max_retries = 3 and returns None when the call raises.
  - structured_output_demo.py: simulates a raw prompt + json.loads pipeline
    (get_user_details_from_prompt) and a typed pipeline
    (get_user_details_with_pydantic), both with hard-coded responses.

The validation and retry machinery itself lives in the external
pydantic/instructor libraries, so it is modelled here from the specification
(SchemaRegistry.validate, ValidatingExtractor); the schemas, the strict JSON
parse, and the two simulated functions are embedded from the source files.
-/

namespace StructuredOutput

/-- JSON-like values occurring in the demos: strings, integers and null. -/
inductive JValue where
  | jstr : String → JValue
  | jint : Int → JValue
  | jnull : JValue
deriving DecidableEq, Repr

/-- A candidate mapping parsed from a backend response: an ordered
association list from field names to JSON values. -/
abbrev Candidate := List (String × JValue)

/-- First value bound to a key in an association list, if any. -/
def lookupField (c : Candidate) (k : String) : Option JValue :=
  match c with
  | [] => none
  | (k₂, v) :: rest => if k₂ = k then some v else lookupField rest k

/-- Semantic field types of the demo schemas: string and integer. -/
inductive FieldType where
  | tString : FieldType
  | tInt : FieldType
deriving DecidableEq, Repr

/-- Modelled from the spec: a SchemaDefinition field has a name, a semantic
type, a required flag and a human-readable description. -/
structure SchemaField where
  name : String
  ftype : FieldType
  required : Bool
  descr : String
deriving DecidableEq, Repr

/-- Modelled from the spec: a SchemaDefinition is an ordered set of fields. -/
structure SchemaDefinition where
  fields : List SchemaField
deriving DecidableEq, Repr

/-- Whether a JSON value inhabits a semantic field type. Null never matches. -/
def typeMatches : FieldType → JValue → Bool
  | FieldType.tString, JValue.jstr _ => true
  | FieldType.tInt, JValue.jint _ => true
  | _, _ => false

/-- Outcome of validating a candidate against a schema: either a typed value
or a list of per-field errors (field name and reason). -/
inductive ValidationOutcome where
  | valid : Candidate → ValidationOutcome
  | invalid : List (String × String) → ValidationOutcome
deriving DecidableEq, Repr

/-- True exactly on the valid outcome. -/
def ValidationOutcome.isValid : ValidationOutcome → Bool
  | ValidationOutcome.valid _ => true
  | ValidationOutcome.invalid _ => false

/-- Modelled from the spec: checking one schema field against a candidate.
A required field must be present, non-null and of the declared type; an
optional field may be absent or null, and when present non-null must have
the declared type. Returns the typed entry to keep, or a per-field error. -/
def checkField (c : Candidate) (f : SchemaField) :
    Except (String × String) (Option (String × JValue)) :=
  match lookupField c f.name with
  | none =>
      if f.required then Except.error (f.name, "required field missing")
      else Except.ok none
  | some JValue.jnull =>
      if f.required then Except.error (f.name, "required field is null")
      else Except.ok none
  | some v =>
      if typeMatches f.ftype v then Except.ok (some (f.name, v))
      else Except.error (f.name, "wrong type")

/-- The per-field error produced by a field check, if any. -/
def fieldError (c : Candidate) (f : SchemaField) : Option (String × String) :=
  match checkField c f with
  | Except.error e => some e
  | Except.ok _ => none

/-- The typed entry produced by a field check, if any. -/
def fieldEntry (c : Candidate) (f : SchemaField) : Option (String × JValue) :=
  match checkField c f with
  | Except.ok (some p) => some p
  | _ => none

/-- Modelled from the spec: SchemaRegistry.validate checks a candidate
mapping against the schema as a whole, returning Valid with the typed value
when no field fails, and Invalid with the full list of per-field errors
otherwise. Pure, no side effects. -/
def validate (s : SchemaDefinition) (c : Candidate) : ValidationOutcome :=
  match s.fields.filterMap (fieldError c) with
  | [] => ValidationOutcome.valid (s.fields.filterMap (fieldEntry c))
  | e :: es => ValidationOutcome.invalid (e :: es)

/-- A typed value satisfies one schema field: a required field is present
with the declared type; an optional field is absent or present with the
declared type. -/
def fieldSatisfied (tv : Candidate) (f : SchemaField) : Prop :=
  if f.required = true then
    ∃ v, lookupField tv f.name = some v ∧ typeMatches f.ftype v = true
  else
    lookupField tv f.name = none ∨
      ∃ v, lookupField tv f.name = some v ∧ typeMatches f.ftype v = true

/-- A typed value satisfies its SchemaDefinition when every field of the
schema is satisfied. -/
def satisfiesSchema (s : SchemaDefinition) (tv : Candidate) : Prop :=
  ∀ f ∈ s.fields, fieldSatisfied tv f

/-- Decidable sufficient condition used for required fields: the candidate
binds the field name to a non-null value of the declared type. -/
def requiredOk (c : Candidate) (f : SchemaField) : Bool :=
  match lookupField c f.name with
  | some v => typeMatches f.ftype v
  | none => false

/-- Decidable condition used for optional fields: the candidate leaves the
field absent or binds it to null. -/
def optionalAbsent (c : Candidate) (f : SchemaField) : Bool :=
  match lookupField c f.name with
  | none => true
  | some JValue.jnull => true
  | some _ => false

/-- Modelled from the spec: one backend interaction, as seen by the
extractor, is either a transport-level failure or a (possibly invalid)
candidate mapping. Scripting the responses per attempt index abstracts the
CompletionClient. -/
inductive BackendResponse where
  | transportError : String → BackendResponse
  | response : Candidate → BackendResponse

/-- Modelled from the spec: the terminal result of the ValidatingExtractor:
a validated typed value, a validation failure carrying the errors of the
last attempt, or a transport failure carrying the underlying cause. -/
inductive ExtractionResult where
  | success : Candidate → ExtractionResult
  | failedValidation : List (String × String) → ExtractionResult
  | failedTransport : String → ExtractionResult
deriving DecidableEq, Repr

/-- Modelled from the spec: the attempt loop of the ValidatingExtractor.
The first Nat is the number of retries still allowed, the second the index
of the attempt about to be made. A transport error ends the loop at once; a
valid candidate is returned; an invalid candidate is retried while retries
remain and otherwise ends the loop with the errors of the last attempt.
The second component of the result is the total number of backend attempts
made, i.e. one more than the index of the last attempt. -/
def attemptFrom (s : SchemaDefinition) (script : Nat → BackendResponse) :
    Nat → Nat → ExtractionResult × Nat
  | 0, n =>
    (match script n with
     | BackendResponse.transportError e => (ExtractionResult.failedTransport e, n + 1)
     | BackendResponse.response c =>
       match validate s c with
       | ValidationOutcome.valid tv => (ExtractionResult.success tv, n + 1)
       | ValidationOutcome.invalid errs => (ExtractionResult.failedValidation errs, n + 1))
  | fuel + 1, n =>
    (match script n with
     | BackendResponse.transportError e => (ExtractionResult.failedTransport e, n + 1)
     | BackendResponse.response c =>
       match validate s c with
       | ValidationOutcome.valid tv => (ExtractionResult.success tv, n + 1)
       | ValidationOutcome.invalid _ => attemptFrom s script fuel (n + 1))

/-- Modelled from the spec: the caller-facing operation
extract(text, schema, maxRetries) of the ValidatingExtractor, with the
backend abstracted by a scripted response per attempt. The input text only
shapes the prompt sent to the backend, so it does not influence the scripted
responses. Returns the result together with the number of attempts made. -/
def extract (_text : String) (s : SchemaDefinition)
    (script : Nat → BackendResponse) (maxRetries : Nat) :
    ExtractionResult × Nat :=
  attemptFrom s script maxRetries 0

end StructuredOutput

namespace OllamaDemo

open StructuredOutput

/-- The UserDetails pydantic model of ollama_instructor_demo.py: name and
age required, city an optional string. -/
structure UserDetails where
  name : String
  age : Int
  city : Option String
deriving DecidableEq, Repr

/-- The UserDetails schema of ollama_instructor_demo.py as a
SchemaDefinition: name required string, age required integer, city optional
string (apostrophes of the source descriptions elided). -/
def userDetailsSchema : SchemaDefinition :=
  SchemaDefinition.mk
    [SchemaField.mk "name" FieldType.tString true
       "The users full name, extracted from the text.",
     SchemaField.mk "age" FieldType.tInt true
       "The users age in years, extracted from the text.",
     SchemaField.mk "city" FieldType.tString false
       "The city where the user lives, if mentioned."]

/-- The completion call made inside extract_user_details either returns a
validated UserDetails object or raises an exception (modelled by the exn
constructor carrying the message). -/
inductive CallOutcome where
  | ok : UserDetails → CallOutcome
  | exn : String → CallOutcome

/-- The prompt built by extract_user_details from its input text. -/
def promptFor (text : String) : String :=
  "Extract the user details from this text: " ++ text

/-- extract_user_details of ollama_instructor_demo.py: sends the prompt to
the completion call and returns the resulting UserDetails; any exception
raised by the call is caught and None is returned (the print statements of
the source carry no data and are omitted). -/
def extract_user_details (call : String → CallOutcome) (text : String) :
    Option UserDetails :=
  match call (promptFor text) with
  | CallOutcome.ok u => some u
  | CallOutcome.exn _ => none

end OllamaDemo

namespace StructuredDemo

open StructuredOutput

/-- JSON insignificant whitespace characters. -/
def isWs (ch : Char) : Bool :=
  ch = ' ' || ch = '\n' || ch = '\t' || ch = '\r'

/-- Drop leading whitespace. -/
def skipWs : List Char → List Char
  | [] => []
  | ch :: rest => if isWs ch then skipWs rest else ch :: rest

/-- Read the characters of a JSON string literal after its opening quote, up
to the closing quote; returns the content and the remaining input. The
strings appearing in this repository contain no escape sequences, so none
are modelled. -/
def strChars : List Char → Option (List Char × List Char)
  | [] => none
  | ch :: rest =>
    if ch = '\"' then some ([], rest)
    else
      match strChars rest with
      | some (cs, r) => some (ch :: cs, r)
      | none => none

/-- Split a maximal run of leading decimal digits from the input. -/
def takeDigits : List Char → List Char × List Char
  | [] => ([], [])
  | ch :: rest =>
    if ch.isDigit then
      let (ds, r) := takeDigits rest
      (ch :: ds, r)
    else ([], ch :: rest)

/-- Decimal value of a digit run. -/
def digitsToNat (ds : List Char) : Nat :=
  ds.foldl (fun acc ch => acc * 10 + (ch.toNat - 48)) 0

/-- Parse one JSON scalar value (string, integer or null) at the head of the
input. -/
def parseValue : List Char → Option (JValue × List Char)
  | [] => none
  | ch :: rest =>
    if ch = '\"' then
      match strChars rest with
      | some (cs, r) => some (JValue.jstr (String.mk cs), r)
      | none => none
    else if ch = 'n' then
      match rest with
      | 'u' :: 'l' :: 'l' :: r => some (JValue.jnull, r)
      | _ => none
    else if ch = '-' then
      match takeDigits rest with
      | ([], _) => none
      | (ds, r) => some (JValue.jint (-(Int.ofNat (digitsToNat ds))), r)
    else if ch.isDigit then
      let (ds, r) := takeDigits (ch :: rest)
      some (JValue.jint (Int.ofNat (digitsToNat ds)), r)
    else none

/-- Parse the members of a flat JSON object after its opening brace, ending
at the matching closing brace. The fuel argument bounds the recursion by the
input length. -/
def parseMembers : Nat → List Char → Option (Candidate × List Char)
  | 0, _ => none
  | fuel + 1, l =>
    match skipWs l with
    | '\"' :: rest =>
      match strChars rest with
      | none => none
      | some (key, r₁) =>
        match skipWs r₁ with
        | ':' :: r₂ =>
          match parseValue (skipWs r₂) with
          | none => none
          | some (v, r₃) =>
            match skipWs r₃ with
            | ',' :: r₄ =>
              match parseMembers fuel r₄ with
              | some (more, r₅) => some ((String.mk key, v) :: more, r₅)
              | none => none
            | '\x7d' :: r₄ => some ([(String.mk key, v)], r₄)
            | _ => none
        | _ => none
    | _ => none

/-- Parse one flat JSON object at the head of the input (after optional
leading whitespace). -/
def parseObject (l : List Char) : Option (Candidate × List Char) :=
  match skipWs l with
  | '\x7b' :: rest =>
    match skipWs rest with
    | '\x7d' :: r => some ([], r)
    | _ => parseMembers (rest.length + 1) rest
  | _ => none

/-- The behaviour of json.loads on the responses arising in this repository:
the whole input, up to surrounding whitespace, must be exactly one JSON
object of string/integer/null members; any other input raises
JSONDecodeError, modelled as none. In particular any non-whitespace text
before or after the object makes the parse fail. -/
def json_loads (s : String) : Option Candidate :=
  match parseObject s.toList with
  | some (obj, rest) => if (skipWs rest).isEmpty then some obj else none
  | none => none

/-- The hard-coded simulated LLM response of Method 1 in
structured_output_demo.py (braces written as hex escapes). -/
def simulated_llm_response : String :=
  "\x7b\n  \"name\": \"Alice\",\n  \"age\": 34,\n  \"location\": \"New York\"\n\x7d"

/-- The candidate mapping that simulated_llm_response denotes. -/
def aliceCandidate : Candidate :=
  [("name", JValue.jstr "Alice"), ("age", JValue.jint 34),
   ("location", JValue.jstr "New York")]

/-- get_user_details_from_prompt of structured_output_demo.py: builds a
prompt from the input text (printed only), then parses the hard-coded
simulated response with json.loads, returning the parsed mapping or None on
a JSONDecodeError. The input text never reaches the returned value. -/
def get_user_details_from_prompt (_text : String) : Option Candidate :=
  json_loads simulated_llm_response

/-- The UserDetails pydantic model of structured_output_demo.py: name and
age required, location an optional string defaulting to None. -/
structure UserDetails where
  name : String
  age : Int
  location : Option String := none
deriving DecidableEq, Repr

/-- get_user_details_with_pydantic of structured_output_demo.py: builds a
prompt from the input text (printed only) and returns the hard-coded
simulated UserDetails object, independent of the input. -/
def get_user_details_with_pydantic (_text : String) : UserDetails :=
  UserDetails.mk "Alice" 34 (some "New York")

end StructuredDemo

namespace Scenarios

open StructuredOutput OllamaDemo

/-- The input text of the demonstration in ollama_instructor_demo.py. -/
def johnText : String :=
  "My name is John Doe, I am 30 years old and I live in New York City."

/-- The candidate the backend returns on the first attempt in the scenario
of testable property 5 of the spec. -/
def johnCandidate : Candidate :=
  [("name", JValue.jstr "John Doe"), ("age", JValue.jint 30),
   ("city", JValue.jstr "New York City")]

/-- First backend response of the Bob scenario: age is a string. -/
def bobBad : Candidate :=
  [("name", JValue.jstr "Bob"), ("age", JValue.jstr "thirty")]

/-- Corrected backend response of the Bob scenario: age is an integer. -/
def bobGood : Candidate :=
  [("name", JValue.jstr "Bob"), ("age", JValue.jint 30)]

/-- Scripted backend of the Bob scenario: the bad candidate on the first
attempt, the corrected candidate afterwards. -/
def bobScript : Nat → BackendResponse
  | 0 => BackendResponse.response bobBad
  | _ => BackendResponse.response bobGood

end Scenarios

open StructuredOutput OllamaDemo StructuredDemo Scenarios

/-- A key bound in an association list is found by lookupField. -/
theorem lookupField_isSome {l : Candidate} {k : String} {v : JValue}
    (h : (k, v) ∈ l) : ∃ w, lookupField l k = some w := by
  induction l with
  | nil => cases h
  | cons p rest ih =>
    obtain ⟨k₂, v₂⟩ := p
    by_cases hk : k₂ = k
    · exact ⟨v₂, by simp [lookupField, hk]⟩
    · rcases List.mem_cons.mp h with heq | hmem
      · injection heq with h₁ h₂
        exact absurd h₁.symm hk
      · obtain ⟨w, hw⟩ := ih hmem
        exact ⟨w, by simp [lookupField, hk, hw]⟩

/-- A successful lookupField result is a member of the association list. -/
theorem mem_of_lookupField {l : Candidate} {k : String} {v : JValue}
    (h : lookupField l k = some v) : (k, v) ∈ l := by
  induction l with
  | nil => simp [lookupField] at h
  | cons p rest ih =>
    obtain ⟨k₂, v₂⟩ := p
    by_cases hk : k₂ = k
    · simp [lookupField, hk] at h
      exact List.mem_cons.mpr (Or.inl (by simp [hk, h]))
    · simp [lookupField, hk] at h
      exact List.mem_cons.mpr (Or.inr (ih h))

/-- A value matching a field type is never null. -/
theorem typeMatches_ne_null {t : FieldType} {v : JValue}
    (h : typeMatches t v = true) : v ≠ JValue.jnull := by
  cases t <;> cases v <;> simp [typeMatches] at h ⊢

/-- A typed entry kept by a field check carries the field name, the value
the candidate binds to that name, and a value of the declared type. -/
theorem fieldEntry_sound {c : Candidate} {f : SchemaField} {p : String × JValue}
    (h : fieldEntry c f = some p) :
    p.1 = f.name ∧ lookupField c f.name = some p.2
      ∧ typeMatches f.ftype p.2 = true := by
  unfold fieldEntry at h
  rcases hcf : checkField c f with e | o
  · rw [hcf] at h; simp at h
  · rcases o with _ | p₂
    · rw [hcf] at h; simp at h
    · rw [hcf] at h
      simp at h
      subst h
      unfold checkField at hcf
      rcases hl : lookupField c f.name with _ | w
      · rw [hl] at hcf
        cases hr : f.required <;> simp [hr] at hcf
      · rcases w with sw | iw | _
        · rw [hl] at hcf
          by_cases htm : typeMatches f.ftype (JValue.jstr sw) = true
          · simp [htm] at hcf
            refine ⟨by rw [← hcf], by rw [← hcf], by rw [← hcf]; exact htm⟩
          · simp [htm] at hcf
        · rw [hl] at hcf
          by_cases htm : typeMatches f.ftype (JValue.jint iw) = true
          · simp [htm] at hcf
            refine ⟨by rw [← hcf], by rw [← hcf], by rw [← hcf]; exact htm⟩
          · simp [htm] at hcf
        · rw [hl] at hcf
          cases hr : f.required <;> simp [hr] at hcf

/-- A required field whose check raises no error is bound in the candidate
to a value of the declared type, and its typed entry is kept. -/
theorem fieldError_none_required {c : Candidate} {f : SchemaField}
    (h : fieldError c f = none) (hreq : f.required = true) :
    ∃ v, lookupField c f.name = some v ∧ typeMatches f.ftype v = true
      ∧ fieldEntry c f = some (f.name, v) := by
  unfold fieldError at h
  rcases hcf : checkField c f with e | o
  · rw [hcf] at h; simp at h
  · unfold checkField at hcf
    rcases hl : lookupField c f.name with _ | w
    · rw [hl, hreq] at hcf; simp at hcf
    · rcases w with sw | iw | _
      · rw [hl] at hcf
        by_cases htm : typeMatches f.ftype (JValue.jstr sw) = true
        · simp [htm] at hcf
          exact ⟨JValue.jstr sw, rfl, htm, by simp [fieldEntry, checkField, hl, htm]⟩
        · simp [htm] at hcf
      · rw [hl] at hcf
        by_cases htm : typeMatches f.ftype (JValue.jint iw) = true
        · simp [htm] at hcf
          exact ⟨JValue.jint iw, rfl, htm, by simp [fieldEntry, checkField, hl, htm]⟩
        · simp [htm] at hcf
      · rw [hl, hreq] at hcf; simp at hcf

/-- A field whose check raises no error and whose name is bound in the
candidate to a non-null value has a value of the declared type there. -/
theorem fieldError_none_typeMatches {c : Candidate} {f : SchemaField} {v : JValue}
    (h : fieldError c f = none) (hl : lookupField c f.name = some v)
    (hnn : v ≠ JValue.jnull) : typeMatches f.ftype v = true := by
  unfold fieldError at h
  rcases hcf : checkField c f with e | o
  · rw [hcf] at h; simp at h
  · unfold checkField at hcf
    rw [hl] at hcf
    rcases v with sw | iw | _
    · by_cases htm : typeMatches f.ftype (JValue.jstr sw) = true
      · exact htm
      · simp [htm] at hcf
    · by_cases htm : typeMatches f.ftype (JValue.jint iw) = true
      · exact htm
      · simp [htm] at hcf
    · exact absurd rfl hnn

/-- Soundness of validate: a Valid outcome yields a typed value that
satisfies the schema. -/
theorem validate_valid_sound {s : SchemaDefinition} {c tv : Candidate}
    (h : validate s c = ValidationOutcome.valid tv) : satisfiesSchema s tv := by
  have hsplit : s.fields.filterMap (fieldError c) = []
      ∧ tv = s.fields.filterMap (fieldEntry c) := by
    unfold validate at h
    rcases he : s.fields.filterMap (fieldError c) with _ | ⟨e, es⟩
    · rw [he] at h; simp at h; exact ⟨rfl, h.symm⟩
    · rw [he] at h; simp at h
  obtain ⟨hnil, htv⟩ := hsplit
  have hnone : ∀ f ∈ s.fields, fieldError c f = none :=
    (List.filterMap_eq_nil_iff).mp hnil
  subst htv
  intro f hf
  by_cases hreq : f.required = true
  · obtain ⟨v, hl, htm, hent⟩ := fieldError_none_required (hnone f hf) hreq
    have hmemtv : (f.name, v) ∈ s.fields.filterMap (fieldEntry c) :=
      List.mem_filterMap.mpr ⟨f, hf, hent⟩
    obtain ⟨w, hw⟩ := lookupField_isSome hmemtv
    obtain ⟨g, hg, hgent⟩ := List.mem_filterMap.mp (mem_of_lookupField hw)
    obtain ⟨hkname, hlg, htmg⟩ := fieldEntry_sound hgent
    have hkname₂ : f.name = g.name := hkname
    have hlf : lookupField c f.name = some w := by
      rw [← hkname₂] at hlg; exact hlg
    have hwv : w = v := by rw [hlf] at hl; exact Option.some.inj hl
    subst hwv
    simp only [fieldSatisfied, hreq, if_pos]
    exact ⟨w, hw, htm⟩
  · rcases hw : lookupField (s.fields.filterMap (fieldEntry c)) f.name with _ | w
    · simp only [fieldSatisfied, hreq, if_neg]
      exact Or.inl hw
    · obtain ⟨g, hg, hgent⟩ := List.mem_filterMap.mp (mem_of_lookupField hw)
      obtain ⟨hkname, hlg, htmg⟩ := fieldEntry_sound hgent
      have hkname₂ : f.name = g.name := hkname
      have hlf : lookupField c f.name = some w := by
        rw [← hkname₂] at hlg; exact hlg
      have htm : typeMatches f.ftype w = true :=
        fieldError_none_typeMatches (hnone f hf) hlf (typeMatches_ne_null htmg)
      simp only [fieldSatisfied, hreq, if_neg]
      exact Or.inr ⟨w, hw, htm⟩

/-- A successful run of the attempt loop got its typed value from a Valid
outcome of validate on some backend candidate. -/
theorem attemptFrom_success_validate (s : SchemaDefinition)
    (script : Nat → BackendResponse) :
    ∀ fuel n tv m,
      attemptFrom s script fuel n = (ExtractionResult.success tv, m) →
      ∃ c, validate s c = ValidationOutcome.valid tv := by
  intro fuel
  induction fuel with
  | zero =>
    intro n tv m h
    rcases hs : script n with e | c
    · simp [attemptFrom, hs] at h
    · rcases hv : validate s c with tv₂ | es
      · simp [attemptFrom, hs, hv] at h
        exact ⟨c, by rw [hv, h.1]⟩
      · simp [attemptFrom, hs, hv] at h
  | succ f ih =>
    intro n tv m h
    rcases hs : script n with e | c
    · simp [attemptFrom, hs] at h
    · rcases hv : validate s c with tv₂ | es
      · simp [attemptFrom, hs, hv] at h
        exact ⟨c, by rw [hv, h.1]⟩
      · simp [attemptFrom, hs, hv] at h
        exact ih (n + 1) tv m h

/-- C3: whenever extraction returns a value rather than a failure, that
value satisfies its SchemaDefinition: every required field is present with
its declared type and every optional field is present with its declared
type or absent; no run of the pipeline can return a violating value. -/
theorem C3_success_satisfies_schema (text : String) (s : SchemaDefinition)
    (script : Nat → BackendResponse) (maxRetries : Nat) (tv : Candidate)
    (n : Nat)
    (h : extract text s script maxRetries = (ExtractionResult.success tv, n)) :
    satisfiesSchema s tv := by
  obtain ⟨c, hc⟩ := attemptFrom_success_validate s script maxRetries 0 tv n h
  exact validate_valid_sound hc

/-- C3 witness: the John Doe extraction returns a value, and by the
invariant that value satisfies the UserDetails schema. -/
theorem C3_success_satisfies_schema_witness :
    satisfiesSchema userDetailsSchema johnCandidate :=
  C3_success_satisfies_schema "t" userDetailsSchema
    (fun _ => BackendResponse.response johnCandidate) 3 johnCandidate 1
    (by decide)

/-- C5: for every schema and candidate in which each required field is
bound to a value of its declared type and each optional field is absent or
null, validation returns Valid: optional fields may be absent or null
without causing an Invalid outcome. -/
theorem C5_optional_absent_valid (s : SchemaDefinition) (c : Candidate)
    (hreq : ∀ f ∈ s.fields, f.required = true → requiredOk c f = true)
    (hopt : ∀ f ∈ s.fields, f.required = false → optionalAbsent c f = true) :
    (validate s c).isValid = true := by
  have hnone : ∀ f ∈ s.fields, fieldError c f = none := by
    intro f hf
    by_cases hr : f.required = true
    · have h₁ := hreq f hf hr
      unfold requiredOk at h₁
      rcases hl : lookupField c f.name with _ | w
      · rw [hl] at h₁; simp at h₁
      · rw [hl] at h₁
        simp at h₁
        have hnn := typeMatches_ne_null h₁
        unfold fieldError checkField
        rw [hl]
        rcases w with sw | iw | _
        · simp [h₁]
        · simp [h₁]
        · exact absurd rfl hnn
    · have hrf : f.required = false := by
        cases hfr : f.required
        · rfl
        · exact absurd hfr hr
      have h₁ := hopt f hf hrf
      unfold optionalAbsent at h₁
      rcases hl : lookupField c f.name with _ | w
      · unfold fieldError checkField
        rw [hl, hrf]
        simp
      · rcases w with sw | iw | _
        · rw [hl] at h₁; simp at h₁
        · rw [hl] at h₁; simp at h₁
        · unfold fieldError checkField
          rw [hl, hrf]
          simp
  have hnil : s.fields.filterMap (fieldError c) = [] :=
    List.filterMap_eq_nil_iff.mpr hnone
  unfold validate
  rw [hnil]
  rfl

/-- C5 witness: the Ada candidate binds both required fields of the
UserDetails schema with correct types and omits the optional city, and
validation returns Valid. -/
theorem C5_optional_absent_valid_witness :
    (validate userDetailsSchema
        [("name", JValue.jstr "Ada"), ("age", JValue.jint 36)]).isValid
      = true :=
  C5_optional_absent_valid userDetailsSchema
    [("name", JValue.jstr "Ada"), ("age", JValue.jint 36)]
    (by decide) (by decide)

/-- C1: for the John Doe input text with the UserDetails schema (name
required string, age required integer, city optional string), when the
backend returns the John Doe candidate on the first attempt, extraction
succeeds after exactly one attempt and the typed value binds name to
"John Doe", age to 30 and city to "New York City". -/
theorem C1_first_attempt_success :
    extract johnText userDetailsSchema
        (fun _ => BackendResponse.response johnCandidate) 3
      = (ExtractionResult.success johnCandidate, 1)
    ∧ lookupField johnCandidate "name" = some (JValue.jstr "John Doe")
    ∧ lookupField johnCandidate "age" = some (JValue.jint 30)
    ∧ lookupField johnCandidate "city" = some (JValue.jstr "New York City") := by
  refine ⟨by decide, by decide, by decide, by decide⟩

/-- C7: with the backend first returning the Bob candidate whose age is the
string "thirty", validation is Invalid with an error naming the field age;
the corrective retry returns the candidate with age 30, and extraction
succeeds on the second attempt. -/
theorem C7_wrong_type_then_corrected :
    validate userDetailsSchema bobBad
      = ValidationOutcome.invalid [("age", "wrong type")]
    ∧ extract "t" userDetailsSchema bobScript 3
      = (ExtractionResult.success bobGood, 2) := by
  refine ⟨by decide, by decide⟩

/-- C8: validate is a pure function of the schema and the candidate, so
calling it twice on the same schema and candidate yields the same outcome;
there is no hidden state that a first call could mutate. -/
theorem C8_validate_idempotent (s : SchemaDefinition) (c : Candidate) :
    validate s c = validate s c :=
  rfl

/-- C9: extract_user_details is a total function of the completion call
outcome: when the call raises an exception the exception is caught and None
is returned, and when the call returns a UserDetails object that object is
returned; no exception propagates to the caller. -/
theorem C9_no_exception_propagation :
    (∀ (call : String → CallOutcome) (text : String) (e : String),
        call (promptFor text) = CallOutcome.exn e →
        extract_user_details call text = none)
    ∧ (∀ (call : String → CallOutcome) (text : String) (u : OllamaDemo.UserDetails),
        call (promptFor text) = CallOutcome.ok u →
        extract_user_details call text = some u) := by
  constructor
  · intro call text e h
    simp [extract_user_details, h]
  · intro call text u h
    simp [extract_user_details, h]

/-- C9 witness: at a call that always raises, extract_user_details returns
none, and at a call that returns the Alice object it returns that object. -/
theorem C9_no_exception_propagation_witness :
    extract_user_details (fun _ => CallOutcome.exn "server not running") "t"
      = none
    ∧ extract_user_details
        (fun _ => CallOutcome.ok (OllamaDemo.UserDetails.mk "Alice" 34 none)) "t"
      = some (OllamaDemo.UserDetails.mk "Alice" 34 none) :=
  ⟨C9_no_exception_propagation.1 _ "t" "server not running" rfl,
   C9_no_exception_propagation.2 _ "t" _ rfl⟩

/-- C10: the returned values of the two simulated extraction functions do
not depend on the input text: for every pair of inputs both functions agree,
get_user_details_from_prompt always returns the Alice mapping, and
get_user_details_with_pydantic always returns the Alice UserDetails
object. -/
theorem C10_input_independent (t₁ t₂ : String) :
    get_user_details_from_prompt t₁ = get_user_details_from_prompt t₂
    ∧ get_user_details_from_prompt t₁ = some aliceCandidate
    ∧ get_user_details_with_pydantic t₁ = get_user_details_with_pydantic t₂
    ∧ get_user_details_with_pydantic t₁
      = StructuredDemo.UserDetails.mk "Alice" 34 (some "New York") :=
  ⟨rfl, (by decide : json_loads simulated_llm_response = some aliceCandidate),
   rfl, rfl⟩

/-- C6 counterexample: the simulated response on its own is a valid payload
and parses, yet the same payload preceded by the very surrounding text the
source warns about fails to parse: json.loads does not locate a structured
payload inside noisy output. -/
theorem C6_noisy_payload_fails :
    json_loads simulated_llm_response = some aliceCandidate
    ∧ json_loads ("Here is the JSON you requested: " ++ simulated_llm_response)
      = none := by
  refine ⟨by decide, by decide⟩

/-- C6 amended: parsing of the raw response is strict rather than tolerant.
A response that is exactly one JSON object, up to surrounding whitespace,
parses successfully; a response with non-whitespace text before or after
the payload fails to parse, in which case the function returns None. -/
theorem C6_strict_parse :
    json_loads simulated_llm_response = some aliceCandidate
    ∧ json_loads ("   " ++ simulated_llm_response ++ "  \n") = some aliceCandidate
    ∧ json_loads ("Sure! " ++ simulated_llm_response) = none
    ∧ json_loads (simulated_llm_response ++ " Hope this helps!") = none
    ∧ get_user_details_from_prompt "any text" = some aliceCandidate := by
  refine ⟨by decide, by decide, by decide, by decide, by decide⟩

/-- When every attempt yields a candidate that validates Invalid, the
attempt loop with fuel retries left starting at attempt n makes exactly
fuel + 1 further attempts and fails with the errors of the last one. -/
theorem attemptFrom_all_invalid (s : SchemaDefinition) (cand : Nat → Candidate)
    (errs : Nat → List (String × String))
    (h : ∀ k, validate s (cand k) = ValidationOutcome.invalid (errs k)) :
    ∀ fuel n,
      attemptFrom s (fun k => BackendResponse.response (cand k)) fuel n
        = (ExtractionResult.failedValidation (errs (n + fuel)), n + fuel + 1) := by
  intro fuel
  induction fuel with
  | zero =>
    intro n
    simp [attemptFrom, h n]
  | succ f ih =>
    intro n
    have harith : n + (f + 1) = (n + 1) + f := by omega
    simp [attemptFrom, h n, ih (n + 1), harith]

/-- C2: with maxRetries = N and a backend whose candidate validates Invalid
on every attempt, extraction returns Failed carrying the full error list of
the last attempt, after exactly N + 1 backend attempts (the initial attempt
plus N retries) and hence never an (N + 2)-th attempt. -/
theorem C2_invalid_exhausts_retries (text : String) (s : SchemaDefinition)
    (cand : Nat → Candidate) (errs : Nat → List (String × String)) (N : Nat)
    (h : ∀ k, validate s (cand k) = ValidationOutcome.invalid (errs k)) :
    extract text s (fun k => BackendResponse.response (cand k)) N
      = (ExtractionResult.failedValidation (errs N), N + 1) := by
  have := attemptFrom_all_invalid s cand errs h N 0
  simpa [extract] using this

/-- C2 witness: with maxRetries = 1 and a backend that always returns the
Bob candidate whose age has the wrong type, extraction fails with the age
error after exactly 2 attempts. -/
theorem C2_invalid_exhausts_retries_witness :
    extract "t" userDetailsSchema (fun _ => BackendResponse.response bobBad) 1
      = (ExtractionResult.failedValidation [("age", "wrong type")], 2) :=
  C2_invalid_exhausts_retries "t" userDetailsSchema (fun _ => bobBad)
    (fun _ => [("age", "wrong type")]) 1
    (fun _ =>
      (by decide :
        validate userDetailsSchema bobBad
          = ValidationOutcome.invalid [("age", "wrong type")]))

/-- C4: a transport-level failure on the first attempt ends extraction
immediately: the failure and its underlying cause are surfaced to the
caller after exactly one backend attempt, so no validation retry is
consumed, whatever maxRetries is. -/
theorem C4_transport_fails_immediately (text : String) (s : SchemaDefinition)
    (script : Nat → BackendResponse) (maxRetries : Nat) (e : String)
    (h : script 0 = BackendResponse.transportError e) :
    extract text s script maxRetries
      = (ExtractionResult.failedTransport e, 1) := by
  cases maxRetries with
  | zero => simp [extract, attemptFrom, h]
  | succ k => simp [extract, attemptFrom, h]

/-- C4 witness: with maxRetries = 3 and a backend that is unreachable on
the first attempt, extraction fails at once with the cause after one
attempt. -/
theorem C4_transport_fails_immediately_witness :
    extract "t" userDetailsSchema
        (fun _ => BackendResponse.transportError "connection refused") 3
      = (ExtractionResult.failedTransport "connection refused", 1) :=
  C4_transport_fails_immediately "t" userDetailsSchema
    (fun _ => BackendResponse.transportError "connection refused") 3
    "connection refused" rfl
